import Mathlib

/-!
# Verification of the gemini-commit-generator workflow engine

Shallow embedding of the commit-workflow logic of the repository
(`index.js` and its variants `part_004`, `part_005`, `part_006`, and the
bash variant `part_000`), together with proofs checking the repository's
natural-language specification against the code.

Pure fragments of the JavaScript are translated to Lean functions; JS
strings are modelled as their character sequences (`List Char`) where
character-level computation matters, and as Lean `String` where only
concatenation and comparison occur. The effectful interaction loop is
modelled by explicit outcome types and trace functions over the streams
of inputs the environment supplies.
-/

namespace GCG

/-! ## JS string helpers

`line.trim()` and `status.split('\n')`, character-exact over `List Char`. -/

/-- JS `s.trim()`: strip leading and trailing whitespace. -/
def jsTrim (s : List Char) : List Char :=
  ((s.dropWhile Char.isWhitespace).reverse.dropWhile Char.isWhitespace).reverse

/-- JS `s.split('\n')`: split into segments at each newline, keeping empty
segments (so `"a\n"` yields `["a", ""]`), exactly as `String.prototype.split`. -/
def splitLines (s : List Char) : List (List Char) :=
  match s with
  | [] => [[]]
  | '\n' :: rest => [] :: splitLines rest
  | c :: rest =>
    match splitLines rest with
    | [] => [[c]]
    | l :: ls => (c :: l) :: ls

/-! ## ChangeSummarizer (`getChangeSummary`, textually identical in
`index.js`, `part_004`, `part_005` and `part_006`) -/

/-- The `{added, modified, deleted}` counters produced by `getChangeSummary`. -/
structure ChangeSummary where
  added : Nat
  modified : Nat
  deleted : Nat
deriving DecidableEq, Repr

/-- One iteration of the `lines.forEach` body of `getChangeSummary`:
`const s = line.substring(0, 2); if (s.includes('?') || s.includes('A')) added++;
else if (s.includes('M')) modified++; else if (s.includes('D')) deleted++;`. -/
def countLine (acc : ChangeSummary) (line : List Char) : ChangeSummary :=
  let s := line.take 2
  if s.contains '?' || s.contains 'A' then { acc with added := acc.added + 1 }
  else if s.contains 'M' then { acc with modified := acc.modified + 1 }
  else if s.contains 'D' then { acc with deleted := acc.deleted + 1 }
  else acc

/-- `status.split('\n').filter(line => line.trim())`: the kept status lines. -/
def filteredLines (status : List Char) : List (List Char) :=
  (splitLines status).filter (fun l => !(jsTrim l).isEmpty)

/-- `getChangeSummary` over the raw `git status --porcelain` text. -/
def getChangeSummary (status : List Char) : ChangeSummary :=
  (filteredLines status).foldl countLine ⟨0, 0, 0⟩

/-- A status line whose two-character code takes the `added` branch. -/
def isAddCode (l : List Char) : Bool :=
  (l.take 2).contains '?' || (l.take 2).contains 'A'

/-- A status line that takes the `modified` branch (priority below `added`). -/
def isModCode (l : List Char) : Bool :=
  !(isAddCode l) && (l.take 2).contains 'M'

/-- A status line that takes the `deleted` branch (priority below both). -/
def isDelCode (l : List Char) : Bool :=
  !(isAddCode l) && !((l.take 2).contains 'M') && (l.take 2).contains 'D'

/-- A status line whose two-character code contains none of the four
markers `?`, `A`, `M`, `D` (e.g. a rename `R ` or copy `C ` entry). -/
def markerFree (l : List Char) : Prop :=
  '?' ∉ l.take 2 ∧ 'A' ∉ l.take 2 ∧ 'M' ∉ l.take 2 ∧ 'D' ∉ l.take 2

instance (l : List Char) : Decidable (markerFree l) := by
  unfold markerFree
  infer_instance

/-! ## ContextBudgeter (diff truncation, identical in all Node variants) -/

/-- The literal truncation notice appended by every Node variant. -/
def truncationMarker : List Char :=
  "\n\n...(diff truncated for performance)".toList

/-- `if (diff.length > 3000) diff = diff.substring(0, 3000) + marker`. -/
def truncateDiff (diff : List Char) : List Char :=
  if diff.length > 3000 then diff.take 3000 ++ truncationMarker else diff

/-! ## PromptBuilder -/

/-- The per-language prompt data drawn from `STRINGS` in `part_004`. -/
structure LangTexts where
  promptLang : String
  promptExample : String

/-- `STRINGS.en` fields used by the prompt template of `part_004`. -/
def enTexts : LangTexts :=
  ⟨"English", "- index.js: Refactor AI prompt and optimize performance"⟩

/-- `STRINGS.ko` fields used by the prompt template of `part_004`. -/
def koTexts : LangTexts :=
  ⟨"KOREAN (한국어)", "- index.js: AI 프롬프트 수정 및 성능 최적화"⟩

/-- The interpolation `${userContext || 'None'}`: an absent user intent and
an empty-string user intent both render as the literal `None`. -/
def renderIntent : Option String → String
  | none => "None"
  | some s => if s = "" then "None" else s

/-- The prompt template literal of `part_004` (lines 293-311), with its five
inputs: language directive, history sample, optional user intent, budgeted
diff, and the per-language example inside the format rules. -/
def part004Prompt (t : LangTexts) (history : String) (userContext : Option String)
    (diff : String) : String :=
  "Generate a detailed git commit message in " ++ t.promptLang ++
    " based on the diff.\nMatch the project style from recent history if possible.\n\n[STYLE HISTORY]\n" ++
    history ++ "\n\n[USER CONTEXT]\n" ++ renderIntent userContext ++
    "\n\n[DIFF]\n" ++ diff ++
    "\n\n[FORMAT]\n1. TITLE: A concise summary (max 50 chars), starting with a type (feat, fix, refactor, style, docs, chore).\n2. BODY: Detailed explanation of changes. \n   - For each changed file, use ONLY the FILENAME (exclude directory paths) followed by a description of what changed.\n   - Example: \"" ++
    t.promptExample ++
    "\"\n3. Use a blank line between TITLE and BODY.\n4. Output ONLY the commit message without any markdown backticks or quotes."

/-- The prompt template literal of `index.js` (lines 124-140), hard-coded to
Korean with a simpler body rule. -/
def indexPrompt (history : String) (userContext : Option String)
    (diff : String) : String :=
  "Generate a detailed git commit message in KOREAN (한국어) based on the diff.\nMatch the project style from recent history if possible.\n\n[STYLE HISTORY]\n" ++
    history ++ "\n\n[USER CONTEXT]\n" ++ renderIntent userContext ++
    "\n\n[DIFF]\n" ++ diff ++
    "\n\n[FORMAT]\n1. TITLE: A concise summary (max 50 chars), starting with a type (feat, fix, refactor, style, docs, chore).\n2. BODY: Detailed explanation of changes. List important changes by file or logical group.\n3. Use a blank line between TITLE and BODY.\n4. Output ONLY the commit message without any markdown backticks or quotes."

/-! ## Interaction loop traces -/

/-- A parsed menu selection; anything other than `1`-`4` is `invalid`. -/
inductive MenuChoice
  | commitIt
  | regenerate
  | editIt
  | cancel
  | invalid
deriving DecidableEq, Repr

/-- The per-attempt repository reads and user answers an environment
supplies: `history k`, `userContext k`, `diff k` are what the `k`-th pass
of the flow would read. -/
structure RunInputs where
  history : Nat → String
  userContext : Nat → String
  diff : Nat → String

/-- Generation requests sent by `index.js`'s menu loop after the initial
call: case `'1'` commits and exits, case `'2'` recurses into
`generateAndSelect`, which re-sends the prompt captured by the closure
(built once, before `generateAndSelect` was first invoked); case `'3'`
either commits (exit) or re-prompts, case `'4'` exits, anything else
re-prompts. Modelled on the edit path as the re-prompting continuation,
which subsumes the generation calls of every shorter (committing) run. -/
def indexGenPromptsAux (p : String) : List MenuChoice → List String
  | [] => []
  | .commitIt :: _ => []
  | .cancel :: _ => []
  | .regenerate :: rest => p :: indexGenPromptsAux p rest
  | .editIt :: rest => indexGenPromptsAux p rest
  | .invalid :: rest => indexGenPromptsAux p rest

/-- All generation requests `index.js` sends for a given menu-choice
sequence: the initial one plus those triggered by `Regenerate`. -/
def indexRunPrompts (p : String) (cs : List MenuChoice) : List String :=
  p :: indexGenPromptsAux p cs

/-- The generation request built on the `k`-th pass of `part_004`'s `run`:
case `'2'` executes `return run(lang)`, which re-runs the whole flow, so
pass `k` re-reads history and diff and asks the context question again. -/
def part004PromptAttempt (t : LangTexts) (env : RunInputs) (k : Nat) : String :=
  part004Prompt t (env.history k) (some (env.userContext k)) (env.diff k)

/-! ## Generation step outcome (error handling) -/

/-- Result of the external `gemini` call. -/
inductive GenOutcome
  | ok (raw : String)
  | failed
deriving DecidableEq

/-- What the run does right after the generation call settles. -/
inductive AfterGen
  | fatalExit (code : Nat)
  | menuShown (draft : String)
  | silentReturn
deriving DecidableEq

/-- `part_004` lines 314-324: on success, trim and show the menu; on
failure, print guidance and `process.exit(1)` (`part_006` is identical). -/
def part004AfterGen : GenOutcome → AfterGen
  | .ok raw => .menuShown raw.trim
  | .failed => .fatalExit 1

/-- `index.js` lines 148-156: on success, trim and show the menu; on
failure, `stopSpinner(); console.error(...); return;` — `generateAndSelect`
returns, `run` falls through, and no `process.exit` is ever invoked. -/
def indexAfterGen : GenOutcome → AfterGen
  | .ok raw => .menuShown raw.trim
  | .failed => .silentReturn

/-- Whether the interactive menu is reached. -/
def isMenuShown : AfterGen → Bool
  | .menuShown _ => true
  | _ => false

/-- Whether the step terminates the process with a non-zero exit code. -/
def exitsNonzero : AfterGen → Bool
  | .fatalExit c => c != 0
  | _ => false

/-! ## EditorBridge -/

/-- What the external editor session did to the temporary file: whether its
modification timestamp advanced, and the bytes read back on editor exit. -/
structure EditorSession where
  mtimeAdvanced : Bool
  finalContent : List Char

/-- `part_004.editInEditor` (lines 158-193): records the initial mtime,
reads the file back trimmed, and resolves the content only when
`finalStat.mtimeMs > initialStat.mtimeMs && editedContent` (truthy, i.e.
non-empty); otherwise resolves `null`. -/
def editInEditor (_initial : List Char) (s : EditorSession) : Option (List Char) :=
  let editedContent := jsTrim s.finalContent
  if s.mtimeAdvanced = true ∧ editedContent ≠ [] then some editedContent else none

/-- `index.js.editInEditor` (lines 57-72): no mtime check at all — always
resolves the trimmed content read back. -/
def index_editInEditor (_initial : List Char) (s : EditorSession) : List Char :=
  jsTrim s.finalContent

/-- Disposition of the draft after an `Edit` menu excursion. -/
inductive EditOutcome
  | draftReplaced (m : List Char)
  | editAborted
deriving DecidableEq

/-- The `case '3'` handler of `part_004`: commit the edited message when the
bridge resolved content, otherwise print the edit-aborted notice and keep
the draft. -/
def part004EditStep (draft : List Char) (s : EditorSession) : EditOutcome :=
  match editInEditor draft s with
  | some e => .draftReplaced e
  | none => .editAborted

/-- The `case '3'` handler of `index.js`: `if (editedMsg)` — JS truthiness,
so any non-empty trimmed content is committed, mtime never consulted. -/
def indexEditStep (draft : List Char) (s : EditorSession) : EditOutcome :=
  let e := index_editInEditor draft s
  if e ≠ [] then .draftReplaced e else .editAborted

/-! ## CommitFinalizer -/

/-- `aiMsg.replace(/"/g, '\\"')`: each double quote becomes backslash-quote;
no other character is touched. -/
def escapeQuotes (m : List Char) : List Char :=
  m.flatMap (fun c => if c = '"' then ['\\', '"'] else [c])

/-- The backquote character (command substitution in the shell). -/
def backquoteChar : Char := Char.ofNat 96

/-- POSIX interpretation of the characters placed between the double quotes
of `git commit -m "<arg>"`: a backslash escapes `$`, `"`, `\` and the
backquote; an unescaped `"` terminates the argument early and an unescaped
backquote starts command substitution, both corrupting the message
(returned as `none`). The model is optimistic about `$` (treated as
literal), which only weakens corruption results. -/
def shellDQ : List Char → Option (List Char)
  | [] => some []
  | '\\' :: c :: rest =>
    if c = '$' || c = '"' || c = '\\' || c = backquoteChar then
      (shellDQ rest).map (fun r => c :: r)
    else
      (shellDQ rest).map (fun r => '\\' :: c :: r)
  | c :: rest =>
    if c = '"' || c = backquoteChar then none
    else (shellDQ rest).map (fun r => c :: r)

/-- How a variant hands the final message to `git commit`. -/
inductive CommitMethod
  | viaFile (content : List Char)
  | inlineArg (arg : List Char)
deriving DecidableEq

/-- `part_004.commitWithMessage` (lines 198-206): writes the message
verbatim to a scoped temporary file and runs `git commit -F "<path>"` —
only the path, never the message, reaches the shell. -/
def commitWithMessage (m : List Char) : CommitMethod := .viaFile m

/-- `index.js` case `'1'` (lines 176-179) and `part_006` case `'1'`
(lines 281-284): escape double quotes and run
`git commit -m "<escaped>"` — the message is interpolated inline. -/
def indexCommitInvocation (m : List Char) : CommitMethod :=
  .inlineArg (escapeQuotes m)

/-- The message git actually records: the file content for `-F`, the
shell-interpreted argument for inline `-m`. -/
def committedMessage : CommitMethod → Option (List Char)
  | .viaFile content => some content
  | .inlineArg arg => shellDQ arg

/-! ## BranchSafetyGuard -/

/-- Modelled from the spec: the `BranchRelation` enum of §4.8/§3. The
BranchSafetyGuard is documented (README `part_003`, spec §4.8) but its
implementation is not among the source files, so it is modelled from the
spec's words. -/
inductive BranchRelation
  | NoUpstream
  | UpToDate
  | LocalAhead
  | RemoteAhead
  | Diverged
  | Detached
deriving DecidableEq, Repr

/-- Modelled from the spec: the three resolutions §4.8 compares —
the symbolic branch (absent on a detached head), the local head, the
upstream head (absent when no upstream is configured), and their merge
base. -/
structure BranchResolution where
  symbolicRef : Option String
  localHead : String
  upstreamHead : Option String
  mergeBase : String

/-- Modelled from the spec: §4.8's classification. No symbolic branch ⇒
`Detached`; absent upstream ⇒ `NoUpstream`; local==upstream ⇒ `UpToDate`;
local==mergeBase (so upstream≠mergeBase) ⇒ `RemoteAhead`;
upstream==mergeBase (so local≠mergeBase) ⇒ `LocalAhead`; neither equals
the merge base ⇒ `Diverged`. -/
def classifyBranch (b : BranchResolution) : BranchRelation :=
  match b.symbolicRef with
  | none => .Detached
  | some _ =>
    match b.upstreamHead with
    | none => .NoUpstream
    | some u =>
      if b.localHead = u then .UpToDate
      else if b.localHead = b.mergeBase then .RemoteAhead
      else if u = b.mergeBase then .LocalAhead
      else .Diverged

/-- Modelled from the spec: the defining condition of each of the six
states, read off §4.8 with the clauses' priority made explicit so that the
conditions partition the state space. -/
def relationHolds (b : BranchResolution) : BranchRelation → Prop
  | .Detached => b.symbolicRef = none
  | .NoUpstream => b.symbolicRef ≠ none ∧ b.upstreamHead = none
  | .UpToDate => b.symbolicRef ≠ none ∧ b.upstreamHead = some b.localHead
  | .RemoteAhead => b.symbolicRef ≠ none ∧
      ∃ u, b.upstreamHead = some u ∧ b.localHead = b.mergeBase ∧ u ≠ b.mergeBase
  | .LocalAhead => b.symbolicRef ≠ none ∧
      ∃ u, b.upstreamHead = some u ∧ u = b.mergeBase ∧ b.localHead ≠ b.mergeBase
  | .Diverged => b.symbolicRef ≠ none ∧
      ∃ u, b.upstreamHead = some u ∧ b.localHead ≠ u ∧
        b.localHead ≠ b.mergeBase ∧ u ≠ b.mergeBase

/-- Modelled from the spec: `RemoteAhead` and `Diverged` block commit;
`Detached` blocks commit; the other three are safe to commit through. -/
def isBlocking : BranchRelation → Bool
  | .RemoteAhead => true
  | .Diverged => true
  | .Detached => true
  | _ => false

/-- Modelled from the spec: outcome of the `Committing` state — either the
commit fires with the current draft, or it is refused and control returns
to the menu with the draft unchanged. -/
inductive CommitStepResult
  | committed (message : String)
  | blocked (draft : String)
deriving DecidableEq

/-- Modelled from the spec: the commit step evaluates the guard and fires
the CommitFinalizer only for a non-blocking classification; a blocking one
issues no commit call and hands the unchanged draft back to the menu. -/
def commitStep (b : BranchResolution) (draft : String) : CommitStepResult :=
  if isBlocking (classifyBranch b) then .blocked draft else .committed draft

/-! ## Run gates after the change summary -/

/-- The all-zero test `summary.added === 0 && summary.modified === 0 &&
summary.deleted === 0`. -/
def allZero (s : ChangeSummary) : Bool :=
  s.added == 0 && s.modified == 0 && s.deleted == 0

/-- How the run proceeds once the change summary (or, for the bash variant,
the staged diff) is known: terminate early with an exit code, or go on to
build and send the generation request. -/
inductive RunOutcome
  | earlyExit (code : Nat)
  | generationPhase (request : String)
deriving DecidableEq

/-- `index.js` lines 98-102: all-zero summary prints the no-changes notice
and calls `process.exit(0)` before the diff is read or any prompt built. -/
def index_runAfterSummary (s : ChangeSummary) (request : String) : RunOutcome :=
  if allZero s then .earlyExit 0 else .generationPhase request

/-- `part_004` lines 265-270 (same in `part_005`/`part_006`): all-zero
summary prints the notice, closes readline and returns — the process then
terminates normally with exit code 0, before any prompt is built. -/
def part004_runAfterSummary (s : ChangeSummary) (request : String) : RunOutcome :=
  if allZero s then .earlyExit 0 else .generationPhase request

/-- `part_000` (aic.sh) lines 55-58: `if [ -z "$DIFF" ]; then echo ...;
exit 1; fi` — the no-changes check of the bash variant exits with code 1. -/
def aic_runAfterDiff (diff : List Char) (request : String) : RunOutcome :=
  if diff.isEmpty then .earlyExit 1 else .generationPhase request

/-! ## Helper lemmas -/

/-- `countLine` dispatches on the three mutually exclusive line classes. -/
theorem countLine_cases (acc : ChangeSummary) (l : List Char) :
    countLine acc l =
      if isAddCode l then ⟨acc.added + 1, acc.modified, acc.deleted⟩
      else if isModCode l then ⟨acc.added, acc.modified + 1, acc.deleted⟩
      else if isDelCode l then ⟨acc.added, acc.modified, acc.deleted + 1⟩
      else acc := by
  by_cases h1 : '?' ∈ l.take 2 <;> by_cases h2 : 'A' ∈ l.take 2 <;>
    by_cases h3 : 'M' ∈ l.take 2 <;> by_cases h4 : 'D' ∈ l.take 2 <;>
      simp [countLine, isAddCode, isModCode, isDelCode, h1, h2, h3, h4]

/-- The summarizer fold adds the number of lines in each class to the
accumulator. -/
theorem foldl_countLine (lines : List (List Char)) (acc : ChangeSummary) :
    lines.foldl countLine acc =
      ⟨acc.added + lines.countP isAddCode,
       acc.modified + lines.countP isModCode,
       acc.deleted + lines.countP isDelCode⟩ := by
  induction lines generalizing acc with
  | nil => simp
  | cons l rest ih =>
    rw [List.foldl_cons, ih, countLine_cases]
    by_cases h1 : '?' ∈ l.take 2 <;> by_cases h2 : 'A' ∈ l.take 2 <;>
      by_cases h3 : 'M' ∈ l.take 2 <;> by_cases h4 : 'D' ∈ l.take 2 <;>
        simp [List.countP_cons, isAddCode, isModCode, isDelCode,
          h1, h2, h3, h4] <;> omega

/-- Each kept line is counted in at most one bucket. -/
theorem countP_classes_le_length (lines : List (List Char)) :
    lines.countP isAddCode + lines.countP isModCode + lines.countP isDelCode ≤
      lines.length := by
  induction lines with
  | nil => simp
  | cons l rest ih =>
    simp only [List.countP_cons, List.length_cons]
    by_cases h1 : '?' ∈ l.take 2 <;> by_cases h2 : 'A' ∈ l.take 2 <;>
      by_cases h3 : 'M' ∈ l.take 2 <;> by_cases h4 : 'D' ∈ l.take 2 <;>
        simp [isAddCode, isModCode, isDelCode, h1, h2, h3, h4] <;> omega

/-- A marker-free line leaves the accumulator untouched, so a whole list of
marker-free lines folds to the initial accumulator. -/
theorem foldl_countLine_markerFree (lines : List (List Char))
    (h : ∀ l ∈ lines, markerFree l) (acc : ChangeSummary) :
    lines.foldl countLine acc = acc := by
  induction lines generalizing acc with
  | nil => rfl
  | cons l rest ih =>
    obtain ⟨h1, h2, h3, h4⟩ := h l (by simp)
    rw [List.foldl_cons]
    have hstep : countLine acc l = acc := by
      rw [countLine_cases]
      simp [isAddCode, isModCode, isDelCode, h1, h2, h3, h4]
    rw [hstep]
    exact ih (fun x hx => h x (by simp [hx])) acc

/-! ## Claim theorems -/

/-- C4 counterexample: the status code `AM` contains the modified marker,
yet the summarizer counts the path only in the `added` bucket — the else-if
chain makes classification mutually exclusive, contrary to the claim. -/
theorem changeSummary_AM_counts_added_only :
    getChangeSummary "AM x.txt".toList = ⟨1, 0, 0⟩ ∧
      (("AM x.txt".toList.take 2).contains 'M') = true := by
  decide

/-- C4 (amended): classification is mutually exclusive with priority
untracked/added over modified over deleted: `added` counts exactly the
lines whose code contains `?` or `A`; `modified` counts exactly the lines
whose code contains `M` and neither `?` nor `A`; `deleted` counts exactly
the lines whose code contains `D` and none of `?`, `A`, `M`; consequently
each path is counted in at most one bucket. -/
theorem getChangeSummary_priority_partition (status : List Char) :
    getChangeSummary status =
      ⟨(filteredLines status).countP isAddCode,
       (filteredLines status).countP isModCode,
       (filteredLines status).countP isDelCode⟩ ∧
    (getChangeSummary status).added + (getChangeSummary status).modified +
        (getChangeSummary status).deleted ≤ (filteredLines status).length := by
  have h := foldl_countLine (filteredLines status) ⟨0, 0, 0⟩
  constructor
  · simpa [getChangeSummary] using h
  · have hle := countP_classes_le_length (filteredLines status)
    unfold getChangeSummary
    rw [h]
    simpa using hle

/-- C10: a staged status whose every line code contains none of `?`, `A`,
`M`, `D` (e.g. only renames or copies) summarizes to all-zero counts, so
the run exits the nothing-to-commit way even though changes are staged. -/
theorem unrecognized_codes_zero_summary (status : List Char) (request : String)
    (_hstaged : filteredLines status ≠ [])
    (h : ∀ l ∈ filteredLines status, markerFree l) :
    getChangeSummary status = ⟨0, 0, 0⟩ ∧
      index_runAfterSummary (getChangeSummary status) request =
        .earlyExit 0 := by
  have hz : getChangeSummary status = ⟨0, 0, 0⟩ :=
    foldl_countLine_markerFree (filteredLines status) h ⟨0, 0, 0⟩
  refine ⟨hz, ?_⟩
  rw [hz]
  rfl

/-- Witness for C10 at the rename-only status line `R  old -> new`. -/
theorem unrecognized_codes_zero_summary_witness :
    (filteredLines "R  old -> new".toList ≠ [] ∧
        ∀ l ∈ filteredLines "R  old -> new".toList, markerFree l) ∧
      getChangeSummary "R  old -> new".toList = ⟨0, 0, 0⟩ := by
  refine ⟨⟨by decide, by decide⟩, ?_⟩
  exact (unrecognized_codes_zero_summary "R  old -> new".toList "req"
    (by decide) (by decide)).1

/-- C8: the context budgeter is the identity on any diff of at most 3000
characters; on a longer diff it emits exactly the first 3000 characters
followed by the truncation notice, so the output length is
`3000 + length of the marker` and the output starts with the first 3000
characters of the input. -/
theorem truncateDiff_identity_or_cut (diff : List Char) :
    (diff.length ≤ 3000 → truncateDiff diff = diff) ∧
    (diff.length > 3000 →
      truncateDiff diff = diff.take 3000 ++ truncationMarker ∧
      (truncateDiff diff).length = 3000 + truncationMarker.length ∧
      (truncateDiff diff).take 3000 = diff.take 3000) := by
  constructor
  · intro h
    unfold truncateDiff
    rw [if_neg (by omega)]
  · intro h
    have heq : truncateDiff diff = diff.take 3000 ++ truncationMarker := by
      unfold truncateDiff
      rw [if_pos h]
    refine ⟨heq, ?_, ?_⟩
    · rw [heq, List.length_append, List.length_take]
      omega
    · rw [heq, List.take_append_of_le_length (by rw [List.length_take]; omega),
        List.take_take, min_self]

/-- Witness for C8: a short diff is unchanged; a 3001-character diff is cut
to the budget plus the marker. -/
theorem truncateDiff_identity_or_cut_witness :
    truncateDiff "short".toList = "short".toList ∧
      (truncateDiff (List.replicate 3001 'a')).length =
        3000 + truncationMarker.length :=
  ⟨(truncateDiff_identity_or_cut "short".toList).1 (by decide),
   ((truncateDiff_identity_or_cut (List.replicate 3001 'a')).2
      (by rw [List.length_replicate]; omega)).2.1⟩

/-- C9 counterexample: the no-changes check of the bash variant `part_000`
terminates the run with exit code 1, not 0, when the staged diff is empty. -/
theorem aic_no_changes_exits_one :
    aic_runAfterDiff [] "req" = .earlyExit 1 ∧
      aic_runAfterDiff [] "req" ≠ .earlyExit 0 := by
  decide

/-- C9 (amended): in the Node variants an all-zero change summary ends the
run before any generation request is built, with exit code 0; the bash
variant also stops before generation on an empty diff, but exits 1. -/
theorem node_no_changes_exit_zero (s : ChangeSummary) (request : String)
    (h : allZero s = true) :
    index_runAfterSummary s request = .earlyExit 0 ∧
      part004_runAfterSummary s request = .earlyExit 0 := by
  constructor <;> simp [index_runAfterSummary, part004_runAfterSummary, h]

/-- Witness for C9 at the all-zero summary. -/
theorem node_no_changes_exit_zero_witness :
    allZero ⟨0, 0, 0⟩ = true ∧
      index_runAfterSummary ⟨0, 0, 0⟩ "req" = .earlyExit 0 ∧
      part004_runAfterSummary ⟨0, 0, 0⟩ "req" = .earlyExit 0 :=
  ⟨by decide, (node_no_changes_exit_zero ⟨0, 0, 0⟩ "req" (by decide)).1,
    (node_no_changes_exit_zero ⟨0, 0, 0⟩ "req" (by decide)).2⟩

/-- C6 counterexample: in `index.js` a failed generation call makes
`generateAndSelect` return silently — the process does not exit with a
non-zero code (and the menu is still never shown). -/
theorem index_generation_failure_not_fatal :
    indexAfterGen .failed = .silentReturn ∧
      exitsNonzero (indexAfterGen .failed) = false ∧
      isMenuShown (indexAfterGen .failed) = false := by
  decide

/-- C6 (amended): in `part_004` (and `part_006`) a failed generation is
fatal — exit code 1 and the menu never shown; in `index.js` the failure
also never reaches the menu, but the run returns without a non-zero exit. -/
theorem generation_failure_no_menu :
    part004AfterGen .failed = .fatalExit 1 ∧
      exitsNonzero (part004AfterGen .failed) = true ∧
      isMenuShown (part004AfterGen .failed) = false ∧
      isMenuShown (indexAfterGen .failed) = false := by
  decide

/-- C5 counterexample: with the other inputs fixed, the request text built
with the user intent absent is byte-identical to the one built with the
user intent equal to the empty string — both interpolate as `None` — so
the two do not differ as the claim requires. -/
theorem prompt_absent_equals_empty_intent :
    part004Prompt enTexts "h" none "d" = part004Prompt enTexts "h" (some "") "d" ∧
      indexPrompt "h" none "d" = indexPrompt "h" (some "") "d" := by
  constructor <;> rfl

/-- C5 (amended): the prompt builder renders an absent user intent as the
explicit token `None` — never as an empty string — and is a pure function
of its inputs; however, an empty-string intent renders identically to an
absent one, so the two yield byte-identical request text. -/
theorem prompt_none_token_rendering (t : LangTexts) (history diff : String) :
    renderIntent none = "None" ∧ renderIntent none ≠ "" ∧
      part004Prompt t history none diff =
        part004Prompt t history (some "") diff ∧
      indexPrompt history none diff = indexPrompt history (some "") diff :=
  ⟨rfl, by decide, rfl, rfl⟩

/-- C1 counterexample: `index.js` hands the chosen message to the shell as
an inline argument. For the four-character message `a\"b`, quote escaping
yields `a\\"b`, whose double-quote interpretation collapses the two
backslashes and then hits an unescaped quote — the message is not
committed byte-for-byte (and the invocation is not file-based). -/
theorem inline_commit_corrupts_message :
    indexCommitInvocation ['a', '\\', '"', 'b'] =
        .inlineArg ['a', '\\', '\\', '"', 'b'] ∧
      committedMessage (indexCommitInvocation ['a', '\\', '"', 'b']) = none ∧
      committedMessage (indexCommitInvocation ['a', '\\', '"', 'b']) ≠
        some ['a', '\\', '"', 'b'] := by
  decide

/-- C1 (amended): the `part_004` variant commits through
`commitWithMessage`, which writes the chosen message verbatim to a scoped
temporary file and commits from that file, so every message — embedded
quotes, backquotes and newlines included — is committed byte-for-byte;
the `index.js` and `part_006` variants instead interpolate the message
into an inline shell argument with only double quotes escaped. -/
theorem commitWithMessage_byte_for_byte (m : List Char) :
    commitWithMessage m = .viaFile m ∧
      committedMessage (commitWithMessage m) = some m :=
  ⟨rfl, rfl⟩

/-- C7 counterexample: the `index.js` editor bridge has no modification-time
check — when the editor exits without saving (timestamp unchanged, content
still the non-empty initial draft) it returns the content, and the edit
step commits it rather than treating it as no edit. -/
theorem index_editor_ignores_mtime :
    index_editInEditor "msg".toList ⟨false, "msg".toList⟩ = "msg".toList ∧
      indexEditStep "msg".toList ⟨false, "msg".toList⟩ =
        .draftReplaced "msg".toList := by
  decide

/-- C7 (amended): the `part_004` editor bridge returns the trimmed content
exactly when the modification timestamp advanced and the trimmed content
is non-empty; in every other case it returns absent and the edit step
leaves the draft unchanged. The `index.js` bridge does not check the
timestamp. -/
theorem editInEditor_mtime_and_nonempty (initial : List Char)
    (s : EditorSession) :
    (editInEditor initial s = some (jsTrim s.finalContent) ↔
      s.mtimeAdvanced = true ∧ jsTrim s.finalContent ≠ []) ∧
    ((s.mtimeAdvanced = false ∨ jsTrim s.finalContent = []) →
      editInEditor initial s = none ∧
        part004EditStep initial s = .editAborted) := by
  by_cases h : s.mtimeAdvanced = true ∧ jsTrim s.finalContent ≠ []
  · refine ⟨by simp [editInEditor, h], fun hc => absurd hc ?_⟩
    rcases h with ⟨h1, h2⟩
    rintro (hc | hc)
    · rw [h1] at hc
      simp at hc
    · exact h2 hc
  · have hnone : editInEditor initial s = none := by
      simp only [editInEditor, if_neg h]
    refine ⟨?_, fun _ => ⟨hnone, ?_⟩⟩
    · rw [hnone]
      exact iff_of_false (by simp) h
    · unfold part004EditStep
      rw [hnone]

/-- Witness for C7: editor exits without touching the timestamp — the
bridge returns absent and the edit step aborts. -/
theorem editInEditor_mtime_and_nonempty_witness :
    editInEditor "msg".toList ⟨false, "msg".toList⟩ = none ∧
      part004EditStep "msg".toList ⟨false, "msg".toList⟩ = .editAborted :=
  (editInEditor_mtime_and_nonempty "msg".toList ⟨false, "msg".toList⟩).2
    (Or.inl rfl)

/-- Every generation request the `index.js` menu loop sends after the first
is the closure-captured prompt itself. -/
theorem mem_indexGenPromptsAux (p : String) (cs : List MenuChoice)
    (q : String) (hq : q ∈ indexGenPromptsAux p cs) : q = p := by
  induction cs with
  | nil => simp [indexGenPromptsAux] at hq
  | cons c rest ih =>
    cases c
    case commitIt => simp [indexGenPromptsAux] at hq
    case cancel => simp [indexGenPromptsAux] at hq
    case regenerate =>
      simp only [indexGenPromptsAux, List.mem_cons] at hq
      rcases hq with hq | hq
      · exact hq
      · exact ih hq
    case editIt => exact ih hq
    case invalid => exact ih hq

set_option maxRecDepth 8000 in
/-- C3 counterexample: in `part_004`, choosing Regenerate executes
`return run(lang)`, which re-runs the whole flow — history and user intent
are read again. With the context question answered differently on the
second pass, the rebuilt generation request differs from the first, so the
inputs are not identical. -/
theorem part004_regenerate_rebuilds_different_request :
    part004PromptAttempt enTexts
        ⟨fun _ => "h", fun k => if k = 0 then "" else "different intent",
          fun _ => "d"⟩ 1 ≠
      part004PromptAttempt enTexts
        ⟨fun _ => "h", fun k => if k = 0 then "" else "different intent",
          fun _ => "d"⟩ 0 := by
  decide

/-- C3 (amended): in `index.js` the generation request is built once,
before the interaction loop, and every generation call — the initial one
and each one triggered by Regenerate — sends exactly that request; history
and user intent are not re-read. In `part_004`/`part_006` Regenerate
re-invokes the whole flow and re-reads its inputs. -/
theorem index_regenerate_identical_request (p : String)
    (cs : List MenuChoice) (q : String) (hq : q ∈ indexRunPrompts p cs) :
    q = p := by
  simp only [indexRunPrompts, List.mem_cons] at hq
  rcases hq with hq | hq
  · exact hq
  · exact mem_indexGenPromptsAux p cs q hq

/-- Witness for C3: two Regenerate choices then Cancel — three generation
calls, all sending the original request. -/
theorem index_regenerate_identical_request_witness :
    indexRunPrompts "P" [.regenerate, .regenerate, .cancel] =
        ["P", "P", "P"] ∧
      ("P" : String) = "P" :=
  ⟨by decide,
   index_regenerate_identical_request "P" [.regenerate, .regenerate, .cancel]
     "P" (by decide)⟩

/-- The classification function satisfies the defining condition of the
state it returns. -/
theorem relationHolds_classify (b : BranchResolution) :
    relationHolds b (classifyBranch b) := by
  rcases b with ⟨sym, l, up, mb⟩
  cases sym with
  | none => simp [classifyBranch, relationHolds]
  | some s =>
    cases up with
    | none => simp [classifyBranch, relationHolds]
    | some u =>
      by_cases h1 : l = u
      · simp [classifyBranch, relationHolds, h1]
      · by_cases h2 : l = mb
        · have h3 : u ≠ mb := fun hu => h1 (h2.trans hu.symm)
          have h3' : mb ≠ u := fun hu => h3 hu.symm
          simp [classifyBranch, relationHolds, h1, h2, h3, h3']
        · by_cases h4 : u = mb
          · simp [classifyBranch, relationHolds, h1, h2, h4]
          · simp [classifyBranch, relationHolds, h1, h2, h4]

/-- No state other than the classified one satisfies its defining
condition. -/
theorem relationHolds_unique (b : BranchResolution) (r : BranchRelation)
    (hr : relationHolds b r) : r = classifyBranch b := by
  rcases b with ⟨sym, l, up, mb⟩
  cases r with
  | Detached =>
    simp only [relationHolds] at hr
    simp [classifyBranch, hr]
  | NoUpstream =>
    obtain ⟨h1, h2⟩ := hr
    cases sym with
    | none => exact absurd rfl h1
    | some s =>
      have h2' : up = none := by simpa using h2
      simp [classifyBranch, h2']
  | UpToDate =>
    obtain ⟨h1, h2⟩ := hr
    cases sym with
    | none => exact absurd rfl h1
    | some s =>
      cases up with
      | none => simp at h2
      | some u =>
        have hu : u = l := by simpa using h2
        simp [classifyBranch, hu]
  | RemoteAhead =>
    obtain ⟨h1, u, h2, h3, h4⟩ := hr
    cases sym with
    | none => exact absurd rfl h1
    | some s =>
      cases up with
      | none => simp at h2
      | some u' =>
        have hu : u' = u := by simpa using h2
        have h3' : l = mb := by simpa using h3
        have h4' : u ≠ mb := by simpa using h4
        subst hu
        have hlu : l ≠ u' := fun he => h4' (he ▸ h3')
        have hmbu : mb ≠ u' := fun he => hlu (h3'.trans he)
        simp [classifyBranch, hlu, h3', hmbu]
  | LocalAhead =>
    obtain ⟨h1, u, h2, h3, h4⟩ := hr
    cases sym with
    | none => exact absurd rfl h1
    | some s =>
      cases up with
      | none => simp at h2
      | some u' =>
        have hu : u' = u := by simpa using h2
        have h3' : u = mb := by simpa using h3
        have h4' : l ≠ mb := by simpa using h4
        subst hu
        have hlu : l ≠ u' := fun he => h4' (he.trans h3')
        simp [classifyBranch, hlu, h3', h4']
  | Diverged =>
    obtain ⟨h1, u, h2, h3, h4, h5⟩ := hr
    cases sym with
    | none => exact absurd rfl h1
    | some s =>
      cases up with
      | none => simp at h2
      | some u' =>
        have hu : u' = u := by simpa using h2
        have h3' : l ≠ u := by simpa using h3
        have h4' : l ≠ mb := by simpa using h4
        have h5' : u ≠ mb := by simpa using h5
        subst hu
        simp [classifyBranch, h3', h4', h5']

/-- C2 (spec-modelled): for every resolution of symbolic branch, local
head, upstream head and merge base — including absent upstream and
detached head — exactly one of the six relation conditions holds and the
guard classifies the resolution as that state; and whenever the
classification is RemoteAhead, Diverged or Detached, the commit step
issues no commit call and hands the unchanged draft back to the menu. -/
theorem branchGuard_total_and_blocking (b : BranchResolution)
    (draft : String) :
    (∃! r, relationHolds b r) ∧
      relationHolds b (classifyBranch b) ∧
      (isBlocking (classifyBranch b) = true →
        commitStep b draft = .blocked draft) := by
  refine ⟨⟨classifyBranch b, relationHolds_classify b,
      fun r hr => relationHolds_unique b r hr⟩,
    relationHolds_classify b, fun h => ?_⟩
  simp [commitStep, h]

/-- Witness for C2 at a diverged resolution: the commit is refused and the
draft returned unchanged. -/
theorem branchGuard_total_and_blocking_witness :
    classifyBranch ⟨some "main", "l", some "u", "mb"⟩ = .Diverged ∧
      isBlocking (classifyBranch ⟨some "main", "l", some "u", "mb"⟩) = true ∧
      commitStep ⟨some "main", "l", some "u", "mb"⟩ "m" = .blocked "m" :=
  ⟨by decide, by decide,
   (branchGuard_total_and_blocking ⟨some "main", "l", some "u", "mb"⟩
      "m").2.2 (by decide)⟩

end GCG
